import Mathlib

/-
Verification of the kill-chain state machine and analysis-derivation pipeline
of the Buffett Analyzer stock-research dashboard.

The embedding follows the TypeScript sources:
  * src/app/page.tsx        — Dashboard state (killChainStep, stepResults),
                              the KillChainFlow component, the useStepAnalysis hook
  * src/app/api/analyze/route.ts — per-step analysis endpoint (buildDataBlock,
                              parse/forward of the model response)
  * src/app/api/memos/route.ts   — memo persistence endpoint

React component state is embedded as explicit state records; the transition
function `uiStep` applies an action exactly when the component renders the
corresponding affordance (a button that is not rendered cannot be clicked).
-/

namespace BuffettAnalyzer

/-! ## Data model (types from page.tsx) -/

/-- Step1Analysis (page.tsx): business-understanding analysis.  The TS string
literal unions ("simple" | "complex") are embedded as `String`. -/
structure Step1Analysis where
  characteristics : List String
  summary : String
  verdict : String
deriving DecidableEq, Repr

/-- Step2Analysis (page.tsx): moat analysis. -/
structure Step2Analysis where
  moatType : String
  moatRating : String
  evidence : String
  threats : String
deriving DecidableEq, Repr

/-- Step3Analysis (page.tsx): management analysis. -/
structure Step3Analysis where
  grade : String
  summary : String
  concerns : String
  note : String
deriving DecidableEq, Repr

/-- Step4Analysis (page.tsx): valuation analysis. -/
structure Step4Analysis where
  verdict : String
  reasoning : String
  marginOfSafety : String
  keyMetric : String
deriving DecidableEq, Repr

/-- StepResult (page.tsx): one outcome of the step ledger.
`passed` is the tri-state nullable boolean `boolean | null`. -/
structure StepResult where
  passed : Option Bool
  notes : String
deriving DecidableEq, Repr

/-- StockData (page.tsx): the fundamentals record.  JS numbers are embedded as
rationals; `X | null` becomes `Option X`. -/
structure StockData where
  companyName : String
  ticker : String
  currentPrice : Option ℚ
  currency : String
  peRatio : Option ℚ
  forwardPE : Option ℚ
  marketCap : Option ℚ
  fiftyTwoWeekLow : Option ℚ
  fiftyTwoWeekHigh : Option ℚ
  revenue : Option ℚ
  netIncome : Option ℚ
  profitMargin : Option ℚ
  roic : Option ℚ
  businessSummary : Option String
  website : Option String
deriving DecidableEq, Repr

/-! ## Overall verdict rule (page.tsx lines 602-644 and 710-723) -/

/-- `allPassed` (page.tsx line 603): `stepResults.every((r) => r.passed === true)`. -/
def allPassed (rs : List StepResult) : Bool :=
  rs.all (fun r => r.passed == some true)

/-- The verdict badge of the summary view (page.tsx line 642):
`allPassed ? "STRONG BUY CANDIDATE" : "DOES NOT PASS"`. -/
def summaryVerdict (rs : List StepResult) : String :=
  if allPassed rs then "STRONG BUY CANDIDATE" else "DOES NOT PASS"

/-! ## Memo assembly (page.tsx lines 710-723, memos route lines 15-56) -/

/-- `stepResults[i]?.passed ?? null` (page.tsx lines 713-719). -/
def passedAt (rs : List StepResult) (i : Nat) : Option Bool :=
  match rs.get? i with
  | some r => r.passed
  | none => none

/-- The body the SAVE MEMO button posts to /api/memos (page.tsx lines 710-723).
The four analysis payloads are omitted here; the fields relevant to the claims
are the per-step outcomes and the verdict. -/
structure MemoBody where
  ticker : String
  company_name : String
  step1_passed : Option Bool
  step2_passed : Option Bool
  step3_passed : Option Bool
  step4_passed : Option Bool
  overall_verdict : String
deriving DecidableEq, Repr

/-- Assembly of the memo body (page.tsx lines 710-723): outcomes are taken
positionally with `?? null` defaults and the verdict is
`allPassed ? "STRONG BUY CANDIDATE" : "DOES NOT PASS"`. -/
def assembleMemoBody (d : StockData) (rs : List StepResult) : MemoBody :=
  { ticker := d.ticker
    company_name := d.companyName
    step1_passed := passedAt rs 0
    step2_passed := passedAt rs 1
    step3_passed := passedAt rs 2
    step4_passed := passedAt rs 3
    overall_verdict := if allPassed rs then "STRONG BUY CANDIDATE" else "DOES NOT PASS" }

/-- Result of POST /api/memos: a 400 for missing identifiers, otherwise the
row handed to the storage collaborator. -/
inductive MemoPostResult where
  | badRequest (message : String)
  | saved (row : MemoBody)
deriving DecidableEq, Repr

/-- POST /api/memos (memos/route.ts lines 15-56): the only validation performed
is the JS-falsy check `!ticker || !company_name`; every other field, including
the outcome fields, is inserted as received. -/
def memosPost (b : MemoBody) : MemoPostResult :=
  if b.ticker = "" ∨ b.company_name = "" then
    MemoPostResult.badRequest "ticker and company_name are required"
  else
    MemoPostResult.saved b

/-! ## Kill-chain state machine

The run state combines the Dashboard's `useState` hooks (`killChainStep`,
`stepResults`, page.tsx lines 1314-1315) with the KillChainFlow component's
local state `showStep1Fail` (line 558) and the four analysis caches held by
the `useStepAnalysis` hooks `s1`..`s4` (lines 564-567).  `killChainStep` is a
JS number; it is embedded as `Int`. -/

structure FlowState where
  killChainStep : Int
  stepResults : List StepResult
  showStep1Fail : Bool
  s1 : Option Step1Analysis
  s2 : Option Step2Analysis
  s3 : Option Step3Analysis
  s4 : Option Step4Analysis
deriving DecidableEq, Repr

/-- The state a fresh run starts in: `startKillChain` (page.tsx 1369-1373)
sets `killChainStep = 1` and `stepResults = []`, and mounting a fresh
KillChainFlow initialises `showStep1Fail = false` and empty hook caches. -/
def initState : FlowState :=
  { killChainStep := 1
    stepResults := []
    showStep1Fail := false
    s1 := none
    s2 := none
    s3 := none
    s4 := none }

/-- `isReviewing` (page.tsx line 570):
`killChainStep < activeStep && killChainStep <= 4` with
`activeStep = stepResults.length + 1` (line 569). -/
def reviewing (s : FlowState) : Bool :=
  decide (s.killChainStep < (s.stepResults.length : Int) + 1 ∧ s.killChainStep ≤ 4)

/-- Whether the current step's analysis is loaded: each step block renders its
decision buttons only inside `{sN.analysis && (...)}` (page.tsx 782, 865, 922,
980). -/
def analysisShown (s : FlowState) : Bool :=
  if s.killChainStep = 1 then s.s1.isSome
  else if s.killChainStep = 2 then s.s2.isSome
  else if s.killChainStep = 3 then s.s3.isSome
  else if s.killChainStep = 4 then s.s4.isSome
  else false

/-- Whether the decision (PASS/FAIL/UNSURE) buttons are rendered: the
component must not be in the step-1-fail branch (line 574), must be showing a
step view 1-4 (not the summary, line 602), must not be in review sub-mode
(lines 817, 899, 957, 1028), and the step's analysis must be loaded. -/
def decideOK (s : FlowState) : Bool :=
  decide (s.showStep1Fail = false ∧ 1 ≤ s.killChainStep ∧ s.killChainStep ≤ 4 ∧
    reviewing s = false ∧ analysisShown s = true)

/-- `handleStepPass` (page.tsx 1381-1384): append `{passed: true, notes}` and
increment `killChainStep` — the handler itself is unguarded. -/
def handleStepPass (s : FlowState) (notes : String) : FlowState :=
  { s with
    stepResults := s.stepResults ++ [{ passed := some true, notes := notes }]
    killChainStep := s.killChainStep + 1 }

/-- `handleStepFail` (page.tsx 1386-1389). -/
def handleStepFail (s : FlowState) (notes : String) : FlowState :=
  { s with
    stepResults := s.stepResults ++ [{ passed := some false, notes := notes }]
    killChainStep := s.killChainStep + 1 }

/-- `handleStepUnsure` (page.tsx 1391-1394): records `passed: null`. -/
def handleStepUnsure (s : FlowState) (notes : String) : FlowState :=
  { s with
    stepResults := s.stepResults ++ [{ passed := none, notes := notes }]
    killChainStep := s.killChainStep + 1 }

/-- `goToStep` (page.tsx 1396-1401):
`maxStep = Math.min(stepResults.length + 1, 5)`; the step is set only when
`step >= 1 && step <= maxStep`; the ledger is never touched. -/
def goToStep (s : FlowState) (step : Int) : FlowState :=
  let maxStep : Int := min ((s.stepResults.length : Int) + 1) 5
  if 1 ≤ step ∧ step ≤ maxStep then { s with killChainStep := step } else s

/-- The actions the rendered UI can dispatch.  `notes` strings are supplied by
the component from the cached analysis texts; they are carried here as action
data.  `fetchedN` is the completion of a step's analysis request resolving
into the hook cache (useStepAnalysis, page.tsx 179-210). -/
inductive Action where
  | pass (notes : String)
  | fail (notes : String)
  | unsure (notes : String)
  | goTo (n : Int)
  | reset
  | fetched1 (a : Step1Analysis)
  | fetched2 (a : Step2Analysis)
  | fetched3 (a : Step3Analysis)
  | fetched4 (a : Step4Analysis)
deriving DecidableEq, Repr

/-- One UI transition.  An action applies exactly when its affordance is
rendered:
* PASS/FAIL/UNSURE buttons only in the active (non-review) step view with the
  analysis loaded (`decideOK`); UNSURE exists only on step 1 (page.tsx
  844-853 versus the PassFailButtons of steps 2-4, 510-533);
* the step-1 FAIL and UNSURE onClick additionally set `showStep1Fail`
  (lines 836, 845);
* no navigation affordance exists in the step-1-fail (disqualified) view
  (lines 574-599), so `goTo` applies only outside it, via `goToStep`;
* `reset` (`onReset` → `resetKillChain`, lines 1375-1379) unmounts the flow;
  the next run remounts it fresh, so the whole record returns to `initState`;
* a resolving fetch stores its payload in the step's hook cache. -/
def uiStep (s : FlowState) : Action → FlowState
  | Action.pass notes => if decideOK s then handleStepPass s notes else s
  | Action.fail notes =>
      if decideOK s then
        if s.killChainStep = 1 then
          { handleStepFail s notes with showStep1Fail := true }
        else handleStepFail s notes
      else s
  | Action.unsure notes =>
      if decideOK s ∧ s.killChainStep = 1 then
        { handleStepUnsure s notes with showStep1Fail := true }
      else s
  | Action.goTo n => if s.showStep1Fail then s else goToStep s n
  | Action.reset => initState
  | Action.fetched1 a => { s with s1 := some a }
  | Action.fetched2 a => { s with s2 := some a }
  | Action.fetched3 a => { s with s3 := some a }
  | Action.fetched4 a => { s with s4 := some a }

/-- What KillChainFlow renders (page.tsx): the step-1-fail branch first
(line 574), then the summary when `killChainStep === 5` (line 602), else the
step view. -/
inductive View where
  | disqualified
  | summary
  | stepView (n : Int)
deriving DecidableEq, Repr

/-- Render dispatch of KillChainFlow. -/
def view (s : FlowState) : View :=
  if s.showStep1Fail then View.disqualified
  else if s.killChainStep = 5 then View.summary
  else View.stepView s.killChainStep

/-- States reachable from a fresh run by UI transitions. -/
inductive Reachable : FlowState → Prop where
  | init : Reachable initState
  | next {s : FlowState} (a : Action) : Reachable s → Reachable (uiStep s a)

/-! ## Reachability invariants -/

lemma mem_drop_one_append {α : Type} {l : List α} {x r : α}
    (h : r ∈ (l ++ [x]).drop 1) : r ∈ l.drop 1 ∨ r = x := by
  cases l with
  | nil => simp at h
  | cons a t =>
      simp only [List.cons_append, List.drop_succ_cons, List.drop_zero] at h
      rcases List.mem_append.mp h with h1 | h2
      · exact Or.inl (by simpa using h1)
      · exact Or.inr (by simpa using h2)

lemma decideOK_facts {s : FlowState} (h : decideOK s = true) :
    s.showStep1Fail = false ∧ 1 ≤ s.killChainStep ∧ s.killChainStep ≤ 4 ∧
      (s.stepResults.length : Int) + 1 ≤ s.killChainStep := by
  rw [decideOK, decide_eq_true_eq] at h
  obtain ⟨hf, h1, h4, hr, _⟩ := h
  rw [reviewing, decide_eq_false_iff_not] at hr
  push_neg at hr
  exact ⟨hf, h1, h4, by omega⟩

/-- Every reachable run state satisfies: the current step is between 1 and the
frontier `stepResults.length + 1`, the ledger never exceeds 4 entries, and
every ledger entry after the first has a definite (non-null) outcome. -/
lemma reachable_inv {s : FlowState} (h : Reachable s) :
    1 ≤ s.killChainStep ∧ s.killChainStep ≤ (s.stepResults.length : Int) + 1 ∧
      s.stepResults.length ≤ 4 ∧ ∀ r ∈ s.stepResults.drop 1, r.passed ≠ none := by
  induction h with
  | init =>
      refine ⟨by norm_num [initState], by norm_num [initState], by norm_num [initState], ?_⟩
      intro r hr
      simp [initState] at hr
  | next a hs ih =>
      obtain ⟨ih1, ih2, ih3, ih4⟩ := ih
      rename_i s
      have hdrop : ∀ (p : Option Bool) (notes : String), p ≠ none →
          ∀ r ∈ (s.stepResults ++ [{ passed := p, notes := notes : StepResult }]).drop 1,
            r.passed ≠ none := by
        intro p notes hp r hr
        rcases mem_drop_one_append hr with hmem | heq
        · exact ih4 r hmem
        · rw [heq]; exact hp
      cases a with
      | pass notes =>
          simp only [uiStep]
          by_cases hd : decideOK s = true
          · rw [if_pos hd]
            obtain ⟨_, h1, h4, hge⟩ := decideOK_facts hd
            refine ⟨?_, ?_, ?_, ?_⟩
            · simp only [handleStepPass]; omega
            · simp only [handleStepPass, List.length_append, List.length_cons,
                List.length_nil]
              push_cast
              omega
            · simp only [handleStepPass, List.length_append, List.length_cons,
                List.length_nil]
              omega
            · simpa only [handleStepPass] using hdrop (some true) notes (by simp)
          · rw [if_neg hd]; exact ⟨ih1, ih2, ih3, ih4⟩
      | fail notes =>
          simp only [uiStep]
          by_cases hd : decideOK s = true
          · rw [if_pos hd]
            obtain ⟨_, h1, h4, hge⟩ := decideOK_facts hd
            have core : 1 ≤ (handleStepFail s notes).killChainStep ∧
                (handleStepFail s notes).killChainStep ≤
                  ((handleStepFail s notes).stepResults.length : Int) + 1 ∧
                (handleStepFail s notes).stepResults.length ≤ 4 ∧
                ∀ r ∈ (handleStepFail s notes).stepResults.drop 1, r.passed ≠ none := by
              refine ⟨?_, ?_, ?_, ?_⟩
              · simp only [handleStepFail]; omega
              · simp only [handleStepFail, List.length_append, List.length_cons,
                  List.length_nil]
                push_cast
                omega
              · simp only [handleStepFail, List.length_append, List.length_cons,
                  List.length_nil]
                omega
              · simpa only [handleStepFail] using hdrop (some false) notes (by simp)
            by_cases h1' : s.killChainStep = 1
            · rw [if_pos h1']; exact core
            · rw [if_neg h1']; exact core
          · rw [if_neg hd]; exact ⟨ih1, ih2, ih3, ih4⟩
      | unsure notes =>
          simp only [uiStep]
          by_cases hc : decideOK s = true ∧ s.killChainStep = 1
          · rw [if_pos hc]
            obtain ⟨hd, hstep⟩ := hc
            obtain ⟨_, h1, h4, hge⟩ := decideOK_facts hd
            have hlen : s.stepResults.length = 0 := by omega
            have hnil : s.stepResults = [] := List.length_eq_zero.mp hlen
            refine ⟨?_, ?_, ?_, ?_⟩
            · simp only [handleStepUnsure]; omega
            · simp only [handleStepUnsure, hnil, List.nil_append, List.length_cons,
                List.length_nil, hstep]
              norm_num
            · simp only [handleStepUnsure, hnil, List.nil_append, List.length_cons,
                List.length_nil]
              norm_num
            · intro r hr
              simp [handleStepUnsure, hnil] at hr
          · rw [if_neg hc]; exact ⟨ih1, ih2, ih3, ih4⟩
      | goTo n =>
          simp only [uiStep]
          by_cases hf : s.showStep1Fail = true
          · rw [if_pos hf]; exact ⟨ih1, ih2, ih3, ih4⟩
          · rw [if_neg hf]
            simp only [goToStep]
            by_cases hg : 1 ≤ n ∧ n ≤ min ((s.stepResults.length : Int) + 1) 5
            · rw [if_pos hg]
              obtain ⟨hn1, hn2⟩ := hg
              have := le_min_iff.mp hn2
              exact ⟨hn1, this.1, ih3, ih4⟩
            · rw [if_neg hg]; exact ⟨ih1, ih2, ih3, ih4⟩
      | reset =>
          simp only [uiStep]
          refine ⟨by norm_num [initState], by norm_num [initState],
            by norm_num [initState], ?_⟩
          intro r hr
          simp [initState] at hr
      | fetched1 a => exact ⟨ih1, ih2, ih3, ih4⟩
      | fetched2 a => exact ⟨ih1, ih2, ih3, ih4⟩
      | fetched3 a => exact ⟨ih1, ih2, ih3, ih4⟩
      | fetched4 a => exact ⟨ih1, ih2, ih3, ih4⟩

/-! ## The useStepAnalysis hook (page.tsx lines 179-210)

Per-step analysis caching.  The hook's state is `(analysis, loading, error)`;
its effect (line 203-207) triggers `fetch_` exactly when
`currentStep === step && !analysis && !loading`.  `fetch_` sets
`loading = true` and clears the error; on success it stores the parsed body in
`analysis`; on failure it records the message, leaving `analysis` untouched;
both paths finally clear `loading`.  The `retry` affordance re-invokes the
same `fetch_`. -/

structure HookState (α : Type) where
  analysis : Option α
  loading : Bool
  error : Option String
deriving DecidableEq, Repr

/-- Initial hook state (`useState(null)` / `useState(false)` lines 180-182). -/
def hookInit (α : Type) : HookState α := { analysis := none, loading := false, error := none }

/-- The effect's firing condition (page.tsx line 204):
`currentStep === step && !analysis && !loading`. -/
def effectFires (step currentStep : Nat) (h : HookState α) : Prop :=
  currentStep = step ∧ h.analysis = none ∧ h.loading = false

instance (step currentStep : Nat) [DecidableEq α] (h : HookState α) :
    Decidable (effectFires step currentStep h) := by
  unfold effectFires
  infer_instance

/-- Start of `fetch_` (page.tsx lines 185-186): `setLoading(true); setError(null)`. -/
def fetchStart (h : HookState α) : HookState α := { h with loading := true, error := none }

/-- Successful completion of `fetch_` (lines 193-195, 199):
`setAnalysis(json)` then `setLoading(false)`. -/
def fetchSuccess (h : HookState α) (a : α) : HookState α :=
  { h with analysis := some a, loading := false }

/-- Failed completion of `fetch_` (lines 196-199): `setError(...)` then
`setLoading(false)`; `analysis` is not written. -/
def fetchFailure (h : HookState α) (msg : String) : HookState α :=
  { h with error := some msg, loading := false }

/-! ## Analysis derivation endpoint (api/analyze/route.ts)

`buildDataBlock` (lines 16-29) renders the fundamentals into the prompt's data
block; absent numeric fields (`?? "N/A"`) and an absent or empty business
summary (`|| "Not available"`) are rendered as explicit sentinels.  The block
is embedded line by line so individual renderings are addressable. -/

/-- Rendering of one nullable numeric field: `${x ?? "N/A"}`. -/
def renderOptNum (v : Option ℚ) : String :=
  match v with
  | some x => toString x
  | none => "N/A"

/-- Rendering of the business summary: `${x || "Not available"}` — the JS
falsy check also replaces an empty string by the sentinel. -/
def renderBusinessSummary (v : Option String) : String :=
  match v with
  | some s => if s = "" then "Not available" else s
  | none => "Not available"

/-- The lines of `buildDataBlock` (analyze/route.ts lines 17-28), in source
order. -/
def buildDataBlockLines (d : StockData) : List String :=
  [ "Company: " ++ d.companyName ++ " (" ++ d.ticker ++ ")",
    "Business Description: " ++ renderBusinessSummary d.businessSummary,
    "Current Price: " ++ renderOptNum d.currentPrice,
    "Revenue: " ++ renderOptNum d.revenue,
    "Net Income: " ++ renderOptNum d.netIncome,
    "Profit Margin: " ++ renderOptNum d.profitMargin,
    "Market Cap: " ++ renderOptNum d.marketCap,
    "ROIC: " ++ renderOptNum d.roic,
    "P/E (TTM): " ++ renderOptNum d.peRatio,
    "Forward P/E: " ++ renderOptNum d.forwardPE,
    "52-Week Low: " ++ renderOptNum d.fiftyTwoWeekLow,
    "52-Week High: " ++ renderOptNum d.fiftyTwoWeekHigh ]

/-- `buildDataBlock` (analyze/route.ts lines 16-29). -/
def buildDataBlock (d : StockData) : String :=
  String.intercalate "\n" (buildDataBlockLines d)

/-- The step-specific opening line of each handler's user prompt
(analyze/route.ts lines 67, 104, 144, 184). -/
def stepIntro (step : Nat) : String :=
  if step = 1 then "Analyze this company for a Buffett-style investment review."
  else if step = 2 then "Evaluate the competitive moat of this company using Buffett's framework."
  else if step = 3 then "Evaluate the management quality and capital allocation of this company."
  else "Evaluate whether this stock is attractively priced for a long-term Buffett-style investor."

/-- The data-bearing part of each handler's user prompt: the step-specific
opening line followed by the data block.  The fixed JSON-structure
instructions appended after the block in the source are constant text with no
dependence on the fundamentals and are elided. -/
def analyzePrompt (step : Nat) (d : StockData) : String :=
  stepIntro step ++ "\n\n" ++ buildDataBlock d

/-! ### Response handling (analyze/route.ts handleStep1/handleStep4)

After `callClaude`, each handler strips code fences, runs `JSON.parse`, and
builds its response by reading fields off the parsed object.  The parse stage
is embedded as an `Option` of a field record: `none` when `JSON.parse` threw
(the catch branch, a 500 with a generic message), and `some fields` when it
returned an object, in which each required field may be present or absent.
The handlers perform no presence validation: absent fields are forwarded
absent in a 200 response. -/

/-- The fields handleStep1 reads off the parsed object (lines 88-93), each
possibly absent. -/
structure Step1Fields where
  characteristics : Option (List String)
  summary : Option String
  verdict : Option String
deriving DecidableEq, Repr

/-- The fields handleStep4 reads off the parsed object (lines 207-212). -/
structure Step4Fields where
  verdict : Option String
  reasoning : Option String
  marginOfSafety : Option String
  keyMetric : Option String
deriving DecidableEq, Repr

/-- A handler's outcome: a 200 body, or the catch branch's 500 message. -/
inductive AnalyzeResult (β : Type) where
  | ok (body : β)
  | err (message : String)
deriving DecidableEq, Repr

/-- Response body of handleStep1 (lines 88-93): `step: 1` plus the parsed
fields, forwarded as-is. -/
structure Step1Body where
  step : Nat
  characteristics : Option (List String)
  summary : Option String
  verdict : Option String
deriving DecidableEq, Repr

/-- Response body of handleStep4 (lines 207-213). -/
structure Step4Body where
  step : Nat
  verdict : Option String
  reasoning : Option String
  marginOfSafety : Option String
  keyMetric : Option String
deriving DecidableEq, Repr

/-- handleStep1 (analyze/route.ts lines 85-100) after the model call: a parse
failure lands in the catch branch (500, "Failed to analyze business"); a
successful parse is forwarded field by field with no presence check. -/
def handleStep1Core (parsed : Option Step1Fields) : AnalyzeResult Step1Body :=
  match parsed with
  | none => AnalyzeResult.err "Failed to analyze business"
  | some p =>
      AnalyzeResult.ok
        { step := 1
          characteristics := p.characteristics
          summary := p.summary
          verdict := p.verdict }

/-- handleStep4 (analyze/route.ts lines 204-220), same shape. -/
def handleStep4Core (parsed : Option Step4Fields) : AnalyzeResult Step4Body :=
  match parsed with
  | none => AnalyzeResult.err "Failed to analyze valuation"
  | some p =>
      AnalyzeResult.ok
        { step := 4
          verdict := p.verdict
          reasoning := p.reasoning
          marginOfSafety := p.marginOfSafety
          keyMetric := p.keyMetric }

/-! ## Concrete example values used by witnesses -/

def exA1 : Step1Analysis :=
  { characteristics := ["Brand-Led", "Global Reach"]
    summary := "It sells branded drinks worldwide."
    verdict := "simple" }

def exA2 : Step2Analysis :=
  { moatType := "Brand Power", moatRating := "strong"
    evidence := "High margins.", threats := "Changing tastes." }

def exA3 : Step3Analysis :=
  { grade := "A", summary := "Disciplined capital allocation.", concerns := "None."
    note := "Full management analysis requires SEC filing integration (coming soon)" }

def exA4 : Step4Analysis :=
  { verdict := "fairly valued", reasoning := "Premium multiple."
    marginOfSafety := "moderate", keyMetric := "Trailing earnings multiple." }

def dKO : StockData :=
  { companyName := "The Coca-Cola Company"
    ticker := "KO"
    currentPrice := some 63
    currency := "USD"
    peRatio := some 26
    forwardPE := some 21
    marketCap := some 274000000000
    fiftyTwoWeekLow := some 51
    fiftyTwoWeekHigh := some 64
    revenue := some 47000000000
    netIncome := some 10700000000
    profitMargin := some (23 / 100)
    roic := some (18 / 100)
    businessSummary := some "Beverages."
    website := some "https://www.coca-colacompany.com" }

def dAbsent : StockData :=
  { companyName := "Example Corp"
    ticker := "EXM"
    currentPrice := none
    currency := "USD"
    peRatio := none
    forwardPE := none
    marketCap := none
    fiftyTwoWeekLow := none
    fiftyTwoWeekHigh := none
    revenue := none
    netIncome := none
    profitMargin := none
    roic := none
    businessSummary := none
    website := none }

def rsAllPass : List StepResult :=
  [ { passed := some true, notes := "a" }, { passed := some true, notes := "b" },
    { passed := some true, notes := "c" }, { passed := some true, notes := "d" } ]

/-- A reachable state reviewing step 1 after having decided it. -/
def sReview : FlowState :=
  uiStep (uiStep (uiStep initState (Action.fetched1 exA1)) (Action.pass "p")) (Action.goTo 1)

/-- Step 1 active with its analysis loaded. -/
def s1Active : FlowState := uiStep initState (Action.fetched1 exA1)

/-- The disqualified state after failing step 1. -/
def dqState : FlowState := uiStep s1Active (Action.fail "f")

def sTwo : FlowState :=
  { initState with
    stepResults := [{ passed := some true, notes := "a" }, { passed := some true, notes := "b" }] }

/-- A full run: step 1 passes, steps 2-4 all fail; the run still proceeds to
the summary with 4 recorded outcomes. -/
def runFails : FlowState :=
  uiStep (uiStep (uiStep (uiStep (uiStep (uiStep (uiStep (uiStep initState
    (Action.fetched1 exA1)) (Action.pass "p"))
    (Action.fetched2 exA2)) (Action.fail "f2"))
    (Action.fetched3 exA3)) (Action.fail "f3"))
    (Action.fetched4 exA4)) (Action.fail "f4")

/-! ## Shared helper lemmas -/

lemma view_of_showStep1Fail {t : FlowState} (h : t.showStep1Fail = true) :
    view t = View.disqualified := by
  simp [view, h]

lemma verdict_rule_core (rs : List StepResult) :
    ((if allPassed rs then "STRONG BUY CANDIDATE" else "DOES NOT PASS") =
        "STRONG BUY CANDIDATE" ↔ ∀ r ∈ rs, r.passed = some true)
  ∧ ((∃ r ∈ rs, r.passed ≠ some true) →
      (if allPassed rs then "STRONG BUY CANDIDATE" else "DOES NOT PASS") =
        "DOES NOT PASS") := by
  have hall : allPassed rs = true ↔ ∀ r ∈ rs, r.passed = some true := by
    simp [allPassed, List.all_eq_true]
  constructor
  · cases hb : allPassed rs with
    | true =>
        rw [if_pos rfl]
        exact ⟨fun _ => hall.mp hb, fun _ => rfl⟩
    | false =>
        rw [if_neg (by simp)]
        constructor
        · intro h; exact absurd h (by decide)
        · intro h; exact absurd (hall.mpr h) (by simp [hb])
  · rintro ⟨r, hr, hne⟩
    cases hb : allPassed rs with
    | true => exact absurd (hall.mp hb r hr) hne
    | false => rw [if_neg (by simp)]

lemma decideOK_false_of_ne_frontier {s : FlowState}
    (h2 : s.killChainStep ≤ (s.stepResults.length : Int) + 1)
    (hne : s.killChainStep ≠ (s.stepResults.length : Int) + 1) :
    decideOK s = false := by
  rw [decideOK, decide_eq_false_iff_not]
  rintro ⟨_, _, hle4, hrev, _⟩
  rw [reviewing, decide_eq_false_iff_not] at hrev
  push_neg at hrev
  have hlt : s.killChainStep < (s.stepResults.length : Int) + 1 := lt_of_le_of_ne h2 hne
  exact absurd hle4 (not_le.mpr (hrev hlt))

lemma decideOK_false_of_showStep1Fail {t : FlowState} (ht : t.showStep1Fail = true) :
    decideOK t = false := by
  rw [decideOK, decide_eq_false_iff_not]
  rintro ⟨hf, _⟩
  rw [ht] at hf
  exact Bool.noConfusion hf

/-! ## Claim theorems -/

/-- Claim C1: for a completed run with exactly 4 recorded outcomes, the
overall verdict is "STRONG BUY CANDIDATE" iff every outcome has
`passed == true`; any `false` or `unsure` (null) outcome yields
"DOES NOT PASS"; and the summary display and the saved memo apply the same
rule. -/
theorem overall_verdict_rule (d : StockData) (rs : List StepResult)
    (_h4 : rs.length = 4) :
    (summaryVerdict rs = "STRONG BUY CANDIDATE" ↔ ∀ r ∈ rs, r.passed = some true)
  ∧ ((∃ r ∈ rs, r.passed ≠ some true) → summaryVerdict rs = "DOES NOT PASS")
  ∧ (assembleMemoBody d rs).overall_verdict = summaryVerdict rs := by
  obtain ⟨hiff, hdnp⟩ := verdict_rule_core rs
  exact ⟨hiff, hdnp, rfl⟩

theorem overall_verdict_rule_witness :
    rsAllPass.length = 4 ∧ summaryVerdict rsAllPass = "STRONG BUY CANDIDATE" :=
  ⟨by decide, (overall_verdict_rule dKO rsAllPass (by decide)).1.mpr (by decide)⟩

/-- Claim C2: in every reachable state whose current step is not the active
frontier `stepResults.length + 1`, every decide action (pass, fail, unsure)
is rejected: the ledger and the whole state are unchanged. -/
theorem decide_rejected_off_active {s : FlowState} (hr : Reachable s)
    (hne : s.killChainStep ≠ (s.stepResults.length : Int) + 1) (notes : String) :
    uiStep s (Action.pass notes) = s ∧ uiStep s (Action.fail notes) = s ∧
      uiStep s (Action.unsure notes) = s := by
  obtain ⟨_, h2, _, _⟩ := reachable_inv hr
  have hd : decideOK s = false := decideOK_false_of_ne_frontier h2 hne
  refine ⟨?_, ?_, ?_⟩ <;> simp [uiStep, hd]

theorem decide_rejected_off_active_witness :
    uiStep sReview (Action.pass "x") = sReview :=
  (decide_rejected_off_active
    (Reachable.next (Action.goTo 1) (Reachable.next (Action.pass "p")
      (Reachable.next (Action.fetched1 exA1) Reachable.init)))
    (by decide) "x").1

/-- Claim C3: `goToStep` never mutates the outcome ledger; it sets the current
step to `n` exactly when `1 ≤ n ≤ min(stepResults.length + 1, 5)` and
otherwise leaves the state unchanged. -/
theorem goToStep_spec (s : FlowState) (n : Int) :
    (goToStep s n).stepResults = s.stepResults
  ∧ (1 ≤ n ∧ n ≤ min ((s.stepResults.length : Int) + 1) 5 →
      (goToStep s n).killChainStep = n)
  ∧ (¬(1 ≤ n ∧ n ≤ min ((s.stepResults.length : Int) + 1) 5) → goToStep s n = s) := by
  refine ⟨?_, ?_, ?_⟩
  · simp only [goToStep]
    split <;> rfl
  · intro h
    simp only [goToStep]
    rw [if_pos h]
  · intro h
    simp only [goToStep]
    rw [if_neg h]

theorem goToStep_spec_witness :
    (goToStep sTwo 3).killChainStep = 3 ∧ goToStep sTwo 7 = sTwo :=
  ⟨(goToStep_spec sTwo 3).2.1 (by decide), (goToStep_spec sTwo 7).2.2 (by decide)⟩

/-- Claim C4: deciding step 1 with fail or unsure enters the distinct
disqualified terminal sub-state: the visible state is the disqualified view,
`goTo` to any step is a no-op there, every decide action is a no-op there,
every action other than reset keeps the machine disqualified, and reset is
the only transition out.  By contrast a fail on steps 2-4 does not set the
disqualified flag and advances the run, which proceeds through all four
steps (witnessed by the concrete run `runFails`). -/
theorem step1_fail_disqualifies :
    (∀ (s : FlowState) (notes : String), decideOK s = true → s.killChainStep = 1 →
        (uiStep s (Action.fail notes)).showStep1Fail = true
      ∧ (uiStep s (Action.unsure notes)).showStep1Fail = true
      ∧ view (uiStep s (Action.fail notes)) = View.disqualified
      ∧ view (uiStep s (Action.unsure notes)) = View.disqualified)
  ∧ (∀ t : FlowState, t.showStep1Fail = true →
        view t = View.disqualified
      ∧ (∀ n : Int, uiStep t (Action.goTo n) = t)
      ∧ (∀ notes : String, uiStep t (Action.pass notes) = t ∧
          uiStep t (Action.fail notes) = t ∧ uiStep t (Action.unsure notes) = t)
      ∧ (∀ a : Action, uiStep t a = initState ∨ (uiStep t a).showStep1Fail = true)
      ∧ uiStep t Action.reset = initState)
  ∧ (∀ (s : FlowState) (notes : String), decideOK s = true → 2 ≤ s.killChainStep →
        (uiStep s (Action.fail notes)).showStep1Fail = false
      ∧ (uiStep s (Action.fail notes)).killChainStep = s.killChainStep + 1)
  ∧ view runFails = View.summary ∧ runFails.stepResults.length = 4 := by
  refine ⟨?_, ?_, ?_, by decide, by decide⟩
  · intro s notes hd h1
    have hfail : uiStep s (Action.fail notes) =
        { handleStepFail s notes with showStep1Fail := true } := by
      simp only [uiStep]
      rw [if_pos hd, if_pos h1]
    have huns : uiStep s (Action.unsure notes) =
        { handleStepUnsure s notes with showStep1Fail := true } := by
      simp only [uiStep]
      rw [if_pos ⟨hd, h1⟩]
    refine ⟨by rw [hfail], by rw [huns], ?_, ?_⟩
    · exact view_of_showStep1Fail (by rw [hfail])
    · exact view_of_showStep1Fail (by rw [huns])
  · intro t ht
    have hd : decideOK t = false := decideOK_false_of_showStep1Fail ht
    have hgoTo : ∀ n : Int, uiStep t (Action.goTo n) = t := by
      intro n
      simp [uiStep, ht]
    have hpass : ∀ notes : String, uiStep t (Action.pass notes) = t := by
      intro notes
      simp [uiStep, hd]
    have hfail : ∀ notes : String, uiStep t (Action.fail notes) = t := by
      intro notes
      simp [uiStep, hd]
    have huns : ∀ notes : String, uiStep t (Action.unsure notes) = t := by
      intro notes
      simp [uiStep, hd]
    refine ⟨view_of_showStep1Fail ht, hgoTo,
      fun notes => ⟨hpass notes, hfail notes, huns notes⟩, ?_, rfl⟩
    intro a
    cases a with
    | pass notes => exact Or.inr (by rw [hpass notes]; exact ht)
    | fail notes => exact Or.inr (by rw [hfail notes]; exact ht)
    | unsure notes => exact Or.inr (by rw [huns notes]; exact ht)
    | goTo n => exact Or.inr (by rw [hgoTo n]; exact ht)
    | reset => exact Or.inl rfl
    | fetched1 a => exact Or.inr ht
    | fetched2 a => exact Or.inr ht
    | fetched3 a => exact Or.inr ht
    | fetched4 a => exact Or.inr ht
  · intro s notes hd h2
    obtain ⟨hf, _, _, _⟩ := decideOK_facts hd
    have h1 : ¬ s.killChainStep = 1 := by omega
    have hfail : uiStep s (Action.fail notes) = handleStepFail s notes := by
      simp only [uiStep]
      rw [if_pos hd, if_neg h1]
    rw [hfail]
    exact ⟨hf, rfl⟩

theorem step1_fail_disqualifies_witness :
    (uiStep s1Active (Action.fail "f")).showStep1Fail = true
  ∧ uiStep dqState (Action.goTo 2) = dqState :=
  ⟨(step1_fail_disqualifies.1 s1Active "f" (by decide) (by decide)).1,
   (step1_fail_disqualifies.2.1 dqState (by decide)).2.1 2⟩

/-- Claim C5: reset from any state yields the initial state: empty ledger,
current step 1, no disqualified flag, every cached step analysis discarded
— and a fresh hook's effect fires again for the active step, so a subsequent
run re-derives each analysis. -/
theorem reset_yields_initial_state (s : FlowState) :
    uiStep s Action.reset = initState
  ∧ initState.killChainStep = 1
  ∧ initState.stepResults = []
  ∧ initState.showStep1Fail = false
  ∧ initState.s1 = none ∧ initState.s2 = none ∧ initState.s3 = none ∧ initState.s4 = none
  ∧ (∀ (α : Type) (k : Nat), effectFires k k (hookInit α)) :=
  ⟨rfl, rfl, rfl, rfl, rfl, rfl, rfl, rfl, fun _ _ => ⟨rfl, rfl, rfl⟩⟩

/-- Claim C6: the per-step analysis hook issues its external call at most once
per success: once an analysis is cached the effect never fires again (and no
later hook update discards the cache), a second trigger is suppressed while a
call is in flight, and a failed derivation is not cached — after a failure
the effect fires again when the step is revisited. -/
theorem analysis_cache_behavior {α : Type} (step cur : Nat)
    (h : HookState α) (a : α) (msg : String) :
    (h.analysis.isSome = true → ¬ effectFires step cur h)
  ∧ ¬ effectFires step cur (fetchStart h)
  ∧ (fetchSuccess h a).analysis = some a
  ∧ (∀ c, ¬ effectFires step c (fetchSuccess h a))
  ∧ (fetchStart (fetchSuccess h a)).analysis = some a
  ∧ (fetchFailure (fetchSuccess h a) msg).analysis = some a
  ∧ (h.analysis = none →
      (fetchFailure (fetchStart h) msg).analysis = none ∧
        effectFires step step (fetchFailure (fetchStart h) msg)) := by
  refine ⟨?_, ?_, rfl, ?_, rfl, rfl, ?_⟩
  · rintro hs ⟨_, hnone, _⟩
    rw [hnone] at hs
    simp at hs
  · rintro ⟨_, _, hl⟩
    simp [fetchStart] at hl
  · rintro c ⟨_, hnone, _⟩
    simp [fetchSuccess] at hnone
  · intro hnone
    exact ⟨by simp [fetchFailure, fetchStart, hnone],
      rfl, by simp [fetchFailure, fetchStart, hnone], rfl⟩

theorem analysis_cache_behavior_witness :
    ¬ effectFires 1 1 (fetchSuccess (hookInit Step1Analysis) exA1)
  ∧ effectFires 1 1 (fetchFailure (fetchStart (hookInit Step1Analysis)) "Analysis failed") :=
  ⟨(analysis_cache_behavior 1 1 (hookInit Step1Analysis) exA1 "Analysis failed").2.2.2.1 1,
   ((analysis_cache_behavior 1 1 (hookInit Step1Analysis) exA1
      "Analysis failed").2.2.2.2.2.2 rfl).2⟩

/-- Claim C7 counterexample: a parsed response with every required field
missing is accepted by the handlers — handleStep1 and handleStep4 return a
200 body forwarding the absent fields rather than failing with a
malformed-response error.  This refutes the claim that the endpoint
validates the presence of every required field. -/
theorem missing_fields_accepted_cex :
    handleStep1Core
        (some { characteristics := none, summary := none, verdict := none })
      = AnalyzeResult.ok { step := 1, characteristics := none, summary := none, verdict := none }
  ∧ handleStep4Core
        (some { verdict := none, reasoning := none, marginOfSafety := none, keyMetric := none })
      = AnalyzeResult.ok
          { step := 4, verdict := none, reasoning := none, marginOfSafety := none,
            keyMetric := none } :=
  ⟨rfl, rfl⟩

/-- Claim C7 as amended: after stripping code fences, the analyze handlers
fail (with a generic 500) only when JSON parsing throws; a successfully
parsed object is forwarded field by field with no presence validation, so
missing required fields produce a partial 200 body, not an error. -/
theorem derive_no_field_validation (p : Step1Fields) (q : Step4Fields) :
    handleStep1Core (some p) = AnalyzeResult.ok
      { step := 1, characteristics := p.characteristics, summary := p.summary,
        verdict := p.verdict }
  ∧ handleStep1Core none = AnalyzeResult.err "Failed to analyze business"
  ∧ handleStep4Core (some q) = AnalyzeResult.ok
      { step := 4, verdict := q.verdict, reasoning := q.reasoning,
        marginOfSafety := q.marginOfSafety, keyMetric := q.keyMetric }
  ∧ handleStep4Core none = AnalyzeResult.err "Failed to analyze valuation" :=
  ⟨rfl, rfl, rfl, rfl⟩

/-- Claim C8: the derivation prompt is a deterministic function of the step
and the fundamentals' fields, and every absent (null) field is rendered in
the data block as an explicit non-empty sentinel ("N/A", or "Not available"
for the business summary — which, being guarded by a JS falsy check, also
replaces an empty summary string). -/
theorem prompt_sentinel_rendering (step : Nat) (d : StockData) :
    analyzePrompt step d = stepIntro step ++ "\n\n" ++ buildDataBlock d
  ∧ (d.businessSummary = none →
      (buildDataBlockLines d).get? 1 = some "Business Description: Not available")
  ∧ (d.businessSummary = some "" →
      (buildDataBlockLines d).get? 1 = some "Business Description: Not available")
  ∧ (d.currentPrice = none → (buildDataBlockLines d).get? 2 = some "Current Price: N/A")
  ∧ (d.revenue = none → (buildDataBlockLines d).get? 3 = some "Revenue: N/A")
  ∧ (d.netIncome = none → (buildDataBlockLines d).get? 4 = some "Net Income: N/A")
  ∧ (d.profitMargin = none → (buildDataBlockLines d).get? 5 = some "Profit Margin: N/A")
  ∧ (d.marketCap = none → (buildDataBlockLines d).get? 6 = some "Market Cap: N/A")
  ∧ (d.roic = none → (buildDataBlockLines d).get? 7 = some "ROIC: N/A")
  ∧ (d.peRatio = none → (buildDataBlockLines d).get? 8 = some "P/E (TTM): N/A")
  ∧ (d.forwardPE = none → (buildDataBlockLines d).get? 9 = some "Forward P/E: N/A")
  ∧ (d.fiftyTwoWeekLow = none →
      (buildDataBlockLines d).get? 10 = some "52-Week Low: N/A")
  ∧ (d.fiftyTwoWeekHigh = none →
      (buildDataBlockLines d).get? 11 = some "52-Week High: N/A")
  ∧ "N/A" ≠ "" ∧ "Not available" ≠ "" := by
  refine ⟨rfl, ?_, ?_, ?_, ?_, ?_, ?_, ?_, ?_, ?_, ?_, ?_, ?_, by decide, by decide⟩
  all_goals intro h
  all_goals simp only [buildDataBlockLines, h, List.get?_cons_succ, List.get?_cons_zero]
  all_goals decide

theorem prompt_sentinel_rendering_witness :
    (buildDataBlockLines dAbsent).get? 2 = some "Current Price: N/A"
  ∧ (buildDataBlockLines dAbsent).get? 1 = some "Business Description: Not available" :=
  ⟨(prompt_sentinel_rendering 1 dAbsent).2.2.2.1 rfl,
   (prompt_sentinel_rendering 1 dAbsent).2.1 rfl⟩

/-- Claim C9 counterexample: a memo save for a run with fewer than 4 recorded
outcomes (here zero) succeeds — the endpoint performs no outcome-count check,
so no incomplete-state error exists; the verdict is even produced (vacuously
"STRONG BUY CANDIDATE" over an empty ledger). -/
theorem memo_incomplete_accepted_cex :
    ([] : List StepResult).length < 4
  ∧ memosPost (assembleMemoBody dKO []) = MemoPostResult.saved (assembleMemoBody dKO [])
  ∧ (assembleMemoBody dKO []).overall_verdict = "STRONG BUY CANDIDATE" := by
  refine ⟨by decide, by decide, by decide⟩

/-- Claim C9 as amended: memo saving performs no outcome-count check — with a
non-empty ticker and company name it succeeds for any number of recorded
outcomes (absent outcomes are forwarded as null), failing only the
ticker/company-name falsy check; and the produced memo's overall verdict is
consistent with the all-four-passed rule (the UI reaches the save affordance
only from the summary state, where exactly 4 outcomes exist). -/
theorem memo_save_spec (d : StockData) (rs : List StepResult)
    (ht : d.ticker ≠ "") (hc : d.companyName ≠ "") :
    memosPost (assembleMemoBody d rs) = MemoPostResult.saved (assembleMemoBody d rs)
  ∧ ((assembleMemoBody d rs).overall_verdict = "STRONG BUY CANDIDATE" ↔
      ∀ r ∈ rs, r.passed = some true)
  ∧ ((∃ r ∈ rs, r.passed ≠ some true) →
      (assembleMemoBody d rs).overall_verdict = "DOES NOT PASS") := by
  obtain ⟨hiff, hdnp⟩ := verdict_rule_core rs
  refine ⟨?_, hiff, hdnp⟩
  rw [memosPost, if_neg]
  rintro (h | h)
  · exact ht h
  · exact hc h

theorem memo_save_spec_witness :
    memosPost (assembleMemoBody dKO rsAllPass)
      = MemoPostResult.saved (assembleMemoBody dKO rsAllPass) :=
  (memo_save_spec dKO rsAllPass (by decide) (by decide)).1

/-- Claim C10: in every reachable run state, an unsure (null) outcome can
exist only at position 1 of the ledger — every outcome recorded after the
first has a definite pass or fail value. -/
theorem unsure_only_first_position {s : FlowState} (hr : Reachable s) :
    ∀ r ∈ s.stepResults.drop 1, r.passed = some true ∨ r.passed = some false := by
  have h4 := (reachable_inv hr).2.2.2
  intro r hmem
  rcases hp : r.passed with _ | b
  · exact absurd hp (h4 r hmem)
  · cases b
    · exact Or.inr rfl
    · exact Or.inl rfl

theorem unsure_only_first_position_witness :
    ({ passed := some false, notes := "f" } : StepResult).passed = some true ∨
      ({ passed := some false, notes := "f" } : StepResult).passed = some false :=
  unsure_only_first_position
    (Reachable.next (Action.fail "f") (Reachable.next (Action.fetched2 exA2)
      (Reachable.next (Action.pass "p")
        (Reachable.next (Action.fetched1 exA1) Reachable.init))))
    { passed := some false, notes := "f" } (by decide)

end BuffettAnalyzer
